import Mathlib

/-!
Verification of the voice-capture pipeline of `scripts/voice_recorder.py`.

The development shallowly embeds the pure decision logic of the recorder:

* the silence-gate loop of `record_until_silence` (lines 314-352) as a fold
  over per-frame boolean classifications, with exact rational arithmetic in
  place of the float accumulator `consecutive_silence`;
* the listening gate `wait_for_sound` (lines 258-278) as a recursion over a
  list of per-frame classifications;
* the speech classifier `is_speech` (lines 170-230) over real numbers, with
  the numpy RMS, zero-crossing and rFFT band computations spelled out;
* the recorder's start/stop state machine and the WAV artifact written by
  `stop_recording` (lines 105-139);
* the unconditional temp-file cleanup of `record_and_transcribe` (lines
  423-433) and `record_until_enter` (lines 469-484).

Audio samples are modelled as signed 16-bit values carried in `ℤ`, frames as
`List ℤ`, and thresholds as exact rationals (the Python floats `0.01`, `0.4`,
`0.25`, `2.0`, `1024 / 16000` are represented by the rationals they denote).
-/

namespace VoiceRec

/-! ## Recorder configuration (`VoiceRecorder.__init__`, lines 50-54) -/

/-- `self.chunk = 1024`: samples per frame. -/
def chunkSamples : ℕ := 1024

/-- `self.rate = 16000`: sample rate in Hz. -/
def sampleRate : ℕ := 16000

/-- `self.channels = 1`. -/
def numChannels : ℕ := 1

/-- `chunk_duration = self.chunk / self.rate` (line 316), in seconds. -/
def defaultChunkDuration : ℚ := (chunkSamples : ℚ) / (sampleRate : ℚ)

/-! ## Silence gate of `record_until_silence` (lines 314-352)

The loop state consists of the accumulator `consecutive_silence`, the flag
`has_recorded_speech`, and whether the `break` on line 346 has fired (the
session is finished).  `silence_start` is a wall-clock timestamp that never
influences control flow, so it is not modelled. -/

structure GateState where
  consecutiveSilence : ℚ
  hasRecordedSpeech : Bool
  finished : Bool
deriving DecidableEq

/-- State at loop entry (lines 314-317). -/
def initGate : GateState := ⟨0, false, false⟩

/-- One iteration of the capture loop body (lines 333-352), given the
classification `isSpeaking` of the frame just read.  A finished state is
absorbing: the Python loop has already broken out. -/
def gateStep (chunkDuration silenceDuration : ℚ) (s : GateState)
    (isSpeaking : Bool) : GateState :=
  if s.finished then s
  else if isSpeaking then
    -- lines 347-352: mark speech, reset the silence counter
    ⟨0, true, false⟩
  else if s.hasRecordedSpeech then
    -- lines 336-346: count silence only after speech has been recorded
    ⟨s.consecutiveSilence + chunkDuration, true,
      decide (silenceDuration ≤ s.consecutiveSilence + chunkDuration)⟩
  else s

/-- The gate driven over a whole sequence of frame classifications. -/
def runGate (chunkDuration silenceDuration : ℚ) (s : GateState)
    (bs : List Bool) : GateState :=
  bs.foldl (gateStep chunkDuration silenceDuration) s

@[simp] lemma runGate_nil (cd sd : ℚ) (s : GateState) :
    runGate cd sd s [] = s := rfl

@[simp] lemma runGate_cons (cd sd : ℚ) (s : GateState) (b : Bool)
    (bs : List Bool) :
    runGate cd sd s (b :: bs) = runGate cd sd (gateStep cd sd s b) bs := rfl

lemma runGate_append (cd sd : ℚ) (s : GateState) (l1 l2 : List Bool) :
    runGate cd sd s (l1 ++ l2) = runGate cd sd (runGate cd sd s l1) l2 := by
  simp [runGate]

/-- One silent step from a capturing state strictly below the threshold. -/
lemma gateStep_false_of_lt (cd sd : ℚ) (c : ℚ) (h : c + cd < sd) :
    gateStep cd sd ⟨c, true, false⟩ false = ⟨c + cd, true, false⟩ := by
  simp only [gateStep]
  norm_num
  exact h

/-- One silent step from a capturing state that reaches the threshold. -/
lemma gateStep_false_finished (cd sd c : ℚ) (h : sd ≤ c + cd) :
    (gateStep cd sd ⟨c, true, false⟩ false).finished = true := by
  simp only [gateStep]
  norm_num
  exact h

/-- Running the gate over `n` silent frames from a capturing state adds
`n` frame-durations to the silence counter, as long as the threshold is
never reached along the way. -/
lemma runGate_replicate_false (cd sd : ℚ) (n : ℕ) (c : ℚ)
    (h : ∀ k : ℕ, 1 ≤ k → k ≤ n → c + k * cd < sd) :
    runGate cd sd ⟨c, true, false⟩ (List.replicate n false)
      = ⟨c + n * cd, true, false⟩ := by
  induction n generalizing c with
  | zero => simp [runGate]
  | succ n ih =>
    have h1 : c + cd < sd := by simpa using h 1 le_rfl (by omega)
    rw [List.replicate_succ, runGate_cons, gateStep_false_of_lt cd sd c h1,
      ih (c + cd) ?_]
    · congr 1
      push_cast
      ring
    · intro k hk1 hkn
      have hk := h (k + 1) (by omega) (by omega)
      have : c + (↑(k + 1) : ℚ) * cd = c + cd + k * cd := by
        push_cast
        ring
      rw [this] at hk
      exact hk

/-- Claim C1: while capturing, the silence counter increments by one frame
duration on every not-speech frame, but only once a speech frame has been
observed; it resets to zero on every speech frame; the session finishes
exactly when the accumulated silence reaches the threshold; and at the
defaults (frame duration 1024/16000 s, threshold 2 s) a speech frame
followed by 30 not-speech frames leaves the session capturing, while 32
not-speech frames finish it. -/
theorem c1_silence_gate :
    (∀ cd sd : ℚ, ∀ s : GateState, s.finished = false →
      s.hasRecordedSpeech = true →
      (gateStep cd sd s false).consecutiveSilence = s.consecutiveSilence + cd) ∧
    (∀ cd sd : ℚ, ∀ s : GateState, s.finished = false →
      s.hasRecordedSpeech = false → gateStep cd sd s false = s) ∧
    (∀ cd sd : ℚ, ∀ s : GateState, s.finished = false →
      (gateStep cd sd s true).consecutiveSilence = 0 ∧
      (gateStep cd sd s true).finished = false) ∧
    (∀ cd sd : ℚ, ∀ s : GateState, s.finished = false →
      s.hasRecordedSpeech = true →
      ((gateStep cd sd s false).finished = true ↔
        sd ≤ s.consecutiveSilence + cd)) ∧
    (runGate defaultChunkDuration 2 initGate
      (true :: List.replicate 30 false)).finished = false ∧
    (runGate defaultChunkDuration 2 initGate
      (true :: List.replicate 32 false)).finished = true := by
  refine ⟨?_, ?_, ?_, ?_, ?_, ?_⟩
  · intro cd sd s hf hs
    simp [gateStep, hf, hs]
  · intro cd sd s hf hs
    simp [gateStep, hf, hs]
  · intro cd sd s hf
    simp [gateStep, hf]
  · intro cd sd s hf hs
    simp [gateStep, hf, hs]
  · have hfirst : gateStep defaultChunkDuration 2 initGate true = ⟨0, true, false⟩ := by
      simp [gateStep, initGate]
    rw [runGate_cons, hfirst,
      runGate_replicate_false defaultChunkDuration 2 30 0 ?_]
    intro k hk1 hk30
    have hk : (k : ℚ) ≤ 30 := by exact_mod_cast hk30
    have hd : defaultChunkDuration = 8 / 125 := by
      norm_num [defaultChunkDuration, chunkSamples, sampleRate]
    rw [hd]
    nlinarith
  · have hfirst : gateStep defaultChunkDuration 2 initGate true = ⟨0, true, false⟩ := by
      simp [gateStep, initGate]
    have h32 : (32 : ℕ) = 31 + 1 := by norm_num
    have hd : defaultChunkDuration = 8 / 125 := by
      norm_num [defaultChunkDuration, chunkSamples, sampleRate]
    rw [runGate_cons, hfirst, h32, List.replicate_succ', runGate_append,
      runGate_replicate_false defaultChunkDuration 2 31 0 ?_]
    · rw [runGate_cons, runGate_nil]
      refine gateStep_false_finished _ _ _ ?_
      rw [hd]
      norm_num
    · intro k hk1 hk31
      have hk : (k : ℚ) ≤ 31 := by exact_mod_cast hk31
      rw [hd]
      nlinarith

/-! ## Listening gate `wait_for_sound` (lines 232-278)

The loop keeps a counter `speech_count`, incremented on each speech-classified
frame and reset to zero otherwise; it returns `True` as soon as the counter
reaches `consecutive_chunks` (default 3).  We model the loop over a finite
list of per-frame classifications; an exhausted list means the gate has not
triggered within those frames. -/

/-- Default of the `consecutive_chunks` parameter (line 233). -/
def defaultConsecutiveChunks : ℕ := 3

/-- The `wait_for_sound` loop (lines 258-278) over a list of per-frame
classifications, carrying the running `speech_count`. -/
def waitForSoundRun (consecutiveChunks speechCount : ℕ) :
    List Bool → Bool
  | [] => false
  | b :: rest =>
    if b then
      if consecutiveChunks ≤ speechCount + 1 then true
      else waitForSoundRun consecutiveChunks (speechCount + 1) rest
    else waitForSoundRun consecutiveChunks 0 rest

lemma waitForSoundRun_replicate_true (k : ℕ) (j : ℕ) :
    ∀ (c : ℕ) (rest : List Bool), 0 < j → k ≤ c + j →
      waitForSoundRun k c (List.replicate j true ++ rest) = true := by
  induction j with
  | zero => omega
  | succ j ih =>
    intro c rest _ hkc
    rw [List.replicate_succ, List.cons_append]
    show (if (true : Bool) then _ else _) = true
    rw [if_pos rfl]
    by_cases hk : k ≤ c + 1
    · rw [if_pos hk]
    · rw [if_neg hk]
      have hj : 0 < j := by omega
      exact ih (c + 1) rest hj (by omega)

lemma waitForSoundRun_under (k : ℕ) (m : ℕ) :
    ∀ c : ℕ, c + m < k →
      waitForSoundRun k c (List.replicate m true) = false := by
  induction m with
  | zero => intro c _; rfl
  | succ m ih =>
    intro c hc
    rw [List.replicate_succ]
    show (if (true : Bool) then _ else _) = false
    rw [if_pos rfl, if_neg (by omega : ¬ k ≤ c + 1)]
    exact ih (c + 1) (by omega)

lemma waitForSoundRun_reset (k : ℕ) (m : ℕ) :
    ∀ (c : ℕ) (rest : List Bool), c + m < k →
      waitForSoundRun k c (List.replicate m true ++ false :: rest)
        = waitForSoundRun k 0 rest := by
  induction m with
  | zero => intro c rest _; rfl
  | succ m ih =>
    intro c rest hc
    rw [List.replicate_succ, List.cons_append]
    show (if (true : Bool) then _ else _) = _
    rw [if_pos rfl, if_neg (by omega : ¬ k ≤ c + 1)]
    exact ih (c + 1) rest (by omega)

/-- Claim C4: the listening gate triggers exactly once `K` consecutive
speech frames have been observed: `K` consecutive speech frames trigger it,
any not-speech frame resets the counter (so `K - 1` speech frames followed by
one not-speech frame leave the gate exactly where an empty history would),
and fewer than `K` consecutive speech frames never trigger it. -/
theorem c4_wait_for_sound (k : ℕ) (rest : List Bool) (hk : 0 < k) :
    waitForSoundRun k 0 (List.replicate k true ++ rest) = true ∧
    waitForSoundRun k 0 (List.replicate (k - 1) true ++ false :: rest)
      = waitForSoundRun k 0 rest ∧
    ∀ m : ℕ, m < k → waitForSoundRun k 0 (List.replicate m true) = false := by
  refine ⟨?_, ?_, ?_⟩
  · exact waitForSoundRun_replicate_true k k 0 rest hk (by omega)
  · exact waitForSoundRun_reset k (k - 1) 0 rest (by omega)
  · intro m hm
    exact waitForSoundRun_under k m 0 (by omega)

/-- Concrete instantiation of `c4_wait_for_sound` at the default
`consecutive_chunks = 3` with an empty continuation. -/
theorem c4_wait_for_sound_witness :
    0 < defaultConsecutiveChunks ∧
    (waitForSoundRun defaultConsecutiveChunks 0
        (List.replicate defaultConsecutiveChunks true ++ []) = true ∧
      waitForSoundRun defaultConsecutiveChunks 0
          (List.replicate (defaultConsecutiveChunks - 1) true ++ false :: [])
        = waitForSoundRun defaultConsecutiveChunks 0 [] ∧
      ∀ m : ℕ, m < defaultConsecutiveChunks →
        waitForSoundRun defaultConsecutiveChunks 0
          (List.replicate m true) = false) :=
  ⟨by decide, c4_wait_for_sound defaultConsecutiveChunks [] (by decide)⟩

/-! ## The capture loop of `record_until_silence` with its exits
(lines 321-362)

Each iteration either reads a frame (appending it to `self.frames` before
classifying it, lines 328-329), hits a read error (lines 354-356: warn and
`break`), or is interrupted by the user (lines 358-359: the
`KeyboardInterrupt` handler).  All three exits fall through to
`stop_recording` (line 362), which flushes whatever has been buffered. -/

inductive CaptureEvent where
  | frame (samples : List ℤ) (isSpeaking : Bool)
  | readError
  | interrupt
deriving DecidableEq

/-- The capture loop, returning the buffer that `stop_recording` flushes
when the loop exits. -/
def captureRun (cd sd : ℚ) : GateState → List (List ℤ) → List CaptureEvent →
    List (List ℤ)
  | _, buf, [] => buf
  | _, buf, CaptureEvent.readError :: _ => buf
  | _, buf, CaptureEvent.interrupt :: _ => buf
  | s, buf, CaptureEvent.frame d b :: rest =>
    if (gateStep cd sd s b).finished then buf ++ [d]
    else captureRun cd sd (gateStep cd sd s b) (buf ++ [d]) rest

/-- As long as the silence threshold cannot be reached within the frames
provided, every frame read is retained, and a terminating tail event
(interrupt, read error, or end of trace) flushes the whole buffer. -/
lemma captureRun_flush (cd sd : ℚ) (ds : List (List ℤ)) :
    ∀ (bs : List Bool) (s : GateState) (buf : List (List ℤ))
      (tail : List CaptureEvent),
      (∀ (s' : GateState) (buf' : List (List ℤ)),
        captureRun cd sd s' buf' tail = buf') →
      ds.length = bs.length → 0 ≤ cd → s.finished = false →
      0 ≤ s.consecutiveSilence →
      s.consecutiveSilence + ds.length * cd < sd →
      captureRun cd sd s buf (List.zipWith CaptureEvent.frame ds bs ++ tail)
        = buf ++ ds := by
  induction ds with
  | nil =>
    intro bs s buf tail htail _ _ _ _ _
    simpa using htail s buf
  | cons d ds ih =>
    intro bs s buf tail htail hlen hcd hf hc hbound
    match bs with
    | [] => simp at hlen
    | b :: bs =>
      rw [List.zipWith_cons_cons, List.cons_append]
      have hlen' : ds.length = bs.length := by simpa using hlen
      have hlistc : (d :: ds).length = ds.length + 1 := rfl
      rw [hlistc] at hbound
      push_cast at hbound
      cases b with
      | true =>
        have hg : gateStep cd sd s true = ⟨0, true, false⟩ := by
          simp [gateStep, hf]
        show (if (gateStep cd sd s true).finished then buf ++ [d]
          else captureRun cd sd (gateStep cd sd s true) (buf ++ [d])
            (List.zipWith CaptureEvent.frame ds bs ++ tail)) = buf ++ d :: ds
        rw [hg]
        norm_num
        rw [ih bs ⟨0, true, false⟩ (buf ++ [d]) tail htail hlen' hcd rfl
          le_rfl ?_]
        · simp
        · show (0 : ℚ) + (ds.length : ℚ) * cd < sd
          have hX : (0 : ℚ) ≤ (ds.length : ℚ) * cd :=
            mul_nonneg (Nat.cast_nonneg _) hcd
          have hexp : ((ds.length : ℚ) + 1) * cd = (ds.length : ℚ) * cd + cd := by
            ring
          linarith
      | false =>
        cases hrec : s.hasRecordedSpeech with
        | true =>
          have hlt : s.consecutiveSilence + cd < sd := by nlinarith
          have hg : gateStep cd sd s false
              = ⟨s.consecutiveSilence + cd, true, false⟩ := by
            obtain ⟨c, r, f⟩ := s
            simp only at hf hrec
            subst hf hrec
            exact gateStep_false_of_lt cd sd c hlt
          show (if (gateStep cd sd s false).finished then buf ++ [d]
            else captureRun cd sd (gateStep cd sd s false) (buf ++ [d])
              (List.zipWith CaptureEvent.frame ds bs ++ tail)) = buf ++ d :: ds
          rw [hg]
          norm_num
          rw [ih bs ⟨s.consecutiveSilence + cd, true, false⟩ (buf ++ [d]) tail
            htail hlen' hcd rfl ?_ ?_]
          · simp
          · show (0 : ℚ) ≤ s.consecutiveSilence + cd
            linarith
          · show s.consecutiveSilence + cd + (ds.length : ℚ) * cd < sd
            have hexp : ((ds.length : ℚ) + 1) * cd
                = (ds.length : ℚ) * cd + cd := by ring
            linarith
        | false =>
          have hg : gateStep cd sd s false = s := by
            simp [gateStep, hf, hrec]
          show (if (gateStep cd sd s false).finished then buf ++ [d]
            else captureRun cd sd (gateStep cd sd s false) (buf ++ [d])
              (List.zipWith CaptureEvent.frame ds bs ++ tail)) = buf ++ d :: ds
          rw [hg, if_neg (by rw [hf]; exact Bool.false_ne_true)]
          rw [ih bs s (buf ++ [d]) tail htail hlen' hcd hf hc ?_]
          · simp
          · have hexp : ((ds.length : ℚ) + 1) * cd
                = (ds.length : ℚ) * cd + cd := by ring
            linarith

/-- Claim C3: with the default configuration, if the capture loop is
interrupted by the user or hits a stream read error after five frames have
been buffered, the session terminates with exactly those five frames flushed
as the artifact; if any of them is non-empty the artifact is non-empty. -/
theorem c3_flush_partial_buffer (ds : List (List ℤ)) (bs : List Bool)
    (hlen : ds.length = bs.length) (h5 : ds.length = 5) :
    captureRun defaultChunkDuration 2 initGate []
        (List.zipWith CaptureEvent.frame ds bs ++ [CaptureEvent.interrupt])
      = ds ∧
    captureRun defaultChunkDuration 2 initGate []
        (List.zipWith CaptureEvent.frame ds bs ++ [CaptureEvent.readError])
      = ds ∧
    ((∃ d ∈ ds, d ≠ []) →
      (captureRun defaultChunkDuration 2 initGate []
          (List.zipWith CaptureEvent.frame ds bs
            ++ [CaptureEvent.interrupt])).flatten ≠ []) := by
  have hd : defaultChunkDuration = 8 / 125 := by
    norm_num [defaultChunkDuration, chunkSamples, sampleRate]
  have hbound : (initGate.consecutiveSilence : ℚ)
      + (ds.length : ℚ) * defaultChunkDuration < 2 := by
    rw [h5, hd]
    norm_num [initGate]
  have h1 : captureRun defaultChunkDuration 2 initGate []
      (List.zipWith CaptureEvent.frame ds bs ++ [CaptureEvent.interrupt])
        = ds := by
    have := captureRun_flush defaultChunkDuration 2 ds bs initGate []
      [CaptureEvent.interrupt] (fun _ _ => rfl) hlen (by rw [hd]; norm_num)
      rfl le_rfl hbound
    simpa using this
  have h2 : captureRun defaultChunkDuration 2 initGate []
      (List.zipWith CaptureEvent.frame ds bs ++ [CaptureEvent.readError])
        = ds := by
    have := captureRun_flush defaultChunkDuration 2 ds bs initGate []
      [CaptureEvent.readError] (fun _ _ => rfl) hlen (by rw [hd]; norm_num)
      rfl le_rfl hbound
    simpa using this
  refine ⟨h1, h2, ?_⟩
  rintro ⟨d, hdmem, hdne⟩
  rw [h1]
  rw [ne_eq, List.flatten_eq_nil_iff]
  intro hall
  exact hdne (hall d hdmem)

/-- Concrete instantiation of `c3_flush_partial_buffer`: five one-sample
frames, the second and third classified as speech, interrupted afterwards. -/
theorem c3_flush_partial_buffer_witness :
    captureRun defaultChunkDuration 2 initGate []
        (List.zipWith CaptureEvent.frame [[1], [2], [3], [4], [5]]
            [false, true, true, false, false]
          ++ [CaptureEvent.interrupt])
      = [[1], [2], [3], [4], [5]] ∧
    captureRun defaultChunkDuration 2 initGate []
        (List.zipWith CaptureEvent.frame [[1], [2], [3], [4], [5]]
            [false, true, true, false, false]
          ++ [CaptureEvent.readError])
      = [[1], [2], [3], [4], [5]] ∧
    ((∃ d ∈ [[1], [2], [3], [4], [(5 : ℤ)]], d ≠ []) →
      (captureRun defaultChunkDuration 2 initGate []
          (List.zipWith CaptureEvent.frame [[1], [2], [3], [4], [5]]
              [false, true, true, false, false]
            ++ [CaptureEvent.interrupt])).flatten ≠ []) :=
  c3_flush_partial_buffer [[1], [2], [3], [4], [5]]
    [false, true, true, false, false] (by decide) (by decide)

/-- Concrete instantiation of `c1_silence_gate` at the default frame duration
and threshold, from the capturing state with 1 second of silence already
accumulated. -/
theorem c1_silence_gate_witness :
    (gateStep defaultChunkDuration 2 ⟨1, true, false⟩ false).consecutiveSilence
        = 1 + defaultChunkDuration ∧
    gateStep defaultChunkDuration 2 ⟨0, false, false⟩ false = ⟨0, false, false⟩ ∧
    (gateStep defaultChunkDuration 2 ⟨1, true, false⟩ true).consecutiveSilence = 0 ∧
    ((gateStep defaultChunkDuration 2 ⟨1, true, false⟩ false).finished = true ↔
      (2 : ℚ) ≤ 1 + defaultChunkDuration) :=
  ⟨c1_silence_gate.1 defaultChunkDuration 2 ⟨1, true, false⟩ rfl rfl,
   c1_silence_gate.2.1 defaultChunkDuration 2 ⟨0, false, false⟩ rfl rfl,
   (c1_silence_gate.2.2.1 defaultChunkDuration 2 ⟨1, true, false⟩ rfl).1,
   c1_silence_gate.2.2.2.1 defaultChunkDuration 2 ⟨1, true, false⟩ rfl rfl⟩

/-! ## The speech classifier `is_speech` (lines 170-230)

The numpy float arithmetic is modelled over the exact reals: RMS and the
rFFT magnitudes are real-valued (they involve square roots and the complex
exponential), the zero-crossing rate is an exact rational.  The float
literals `0.01`, `0.4` and `0.25` denote the rationals they are written
as. -/

/-- `np.sqrt(np.mean(audio_array ** 2)) / 32767.0`: the normalized RMS of a
frame, as computed on line 187 of `is_speech`. -/
noncomputable def rmsEnergy (xs : List ℤ) : ℝ :=
  Real.sqrt ((xs.map fun s => ((s : ℝ)) ^ 2).sum / xs.length) / 32767

/-- `get_audio_level` (lines 152-168): the same normalized RMS. -/
noncomputable def get_audio_level (xs : List ℤ) : ℝ :=
  Real.sqrt ((xs.map fun s => ((s : ℝ)) ^ 2).sum / xs.length) / 32767

/-- `np.sign` on one sample. -/
def npSign (s : ℤ) : ℤ :=
  if 0 < s then 1 else if s < 0 then -1 else 0

/-- `np.sum(np.abs(np.diff(np.sign(audio_array)))) / 2` (line 194). -/
def zeroCrossings (xs : List ℤ) : ℚ :=
  ((((xs.zip xs.tail).map fun p => |npSign p.2 - npSign p.1|).sum : ℤ) : ℚ) / 2

/-- The zero-crossing rate `zcr = zero_crossings / len(audio_array)`
(line 195). -/
def zcrOf (xs : List ℤ) : ℚ :=
  zeroCrossings xs / (xs.length : ℚ)

/-- Bin `k` of `np.fft.rfft(audio_array)`. -/
noncomputable def rfftBin (xs : List ℤ) (k : ℕ) : ℂ :=
  (xs.enum.map fun p => ((p.2 : ℤ) : ℂ)
    * Complex.exp (-(2 * (Real.pi : ℂ) * Complex.I * (p.1 : ℂ) * (k : ℂ))
        / (xs.length : ℂ))).sum

/-- `freq_bins = len(magnitude)`: the rFFT of a length-`n` real signal has
`n / 2 + 1` bins. -/
def freqBins (xs : List ℤ) : ℕ := xs.length / 2 + 1

/-- `magnitude = np.abs(fft)` (lines 204-205). -/
noncomputable def magnitudeSpectrum (xs : List ℤ) : List ℝ :=
  (List.range (freqBins xs)).map fun k => Complex.abs (rfftBin xs k)

/-- `np.mean` over reals. -/
noncomputable def listMean (l : List ℝ) : ℝ := l.sum / l.length

/-- `magnitude[:int(freq_bins * 0.125)]` (line 210): the first 12.5% of the
bins.  `int` truncates, and `freq_bins * 0.125` is computed exactly by the
floats involved, so the cut index is `freq_bins / 8` in natural division. -/
noncomputable def lowBand (xs : List ℤ) : List ℝ :=
  (magnitudeSpectrum xs).take (freqBins xs / 8)

/-- `magnitude[int(freq_bins * 0.125):int(freq_bins * 0.5)]` (line 211). -/
noncomputable def midBand (xs : List ℤ) : List ℝ :=
  ((magnitudeSpectrum xs).take (freqBins xs / 2)).drop (freqBins xs / 8)

/-- `magnitude[int(freq_bins * 0.5):int(freq_bins * 0.75)]` (line 212). -/
noncomputable def highBand (xs : List ℤ) : List ℝ :=
  ((magnitudeSpectrum xs).take (3 * freqBins xs / 4)).drop (freqBins xs / 2)

/-- `total_energy = low_energy + mid_energy + high_energy` (line 220). -/
noncomputable def totalBandEnergy (xs : List ℤ) : ℝ :=
  listMean (lowBand xs) + listMean (midBand xs) + listMean (highBand xs)

/-- `mid_ratio = mid_energy / total_energy` (line 224). -/
noncomputable def midRatio (xs : List ℤ) : ℝ :=
  listMean (midBand xs) / totalBandEnergy xs

open Classical in
/-- Stages 2 and 3 of `is_speech` (lines 193-230): the zero-crossing gate
followed by the spectral-band gate. -/
noncomputable def speechLaterStages (xs : List ℤ) : Bool :=
  if zcrOf xs < 1 / 100 ∨ (2 / 5 : ℚ) < zcrOf xs then false
  else if totalBandEnergy xs = 0 then false
  else if midRatio xs < 1 / 4 then false
  else true

open Classical in
/-- The leading energy gate of `is_speech` (lines 184-191), parametric in
whatever runs after it: when the RMS is below the threshold the verdict is
not-speech with no later stage consulted. -/
noncomputable def is_speechCascade (laterStages : List ℤ → Bool)
    (xs : List ℤ) (energy_threshold : ℝ) : Bool :=
  if rmsEnergy xs < energy_threshold then false
  else laterStages xs

/-- `is_speech` (lines 170-230): the energy gate chained with the
zero-crossing and spectral stages. -/
noncomputable def is_speech (xs : List ℤ) (energy_threshold : ℝ) : Bool :=
  is_speechCascade speechLaterStages xs energy_threshold

/-- Claim C2: the classifier says speech exactly when the normalized RMS is
at least the threshold, the zero-crossing rate lies in [0.01, 0.4], the
total of the three spectral-band mean magnitudes is nonzero, and the
mid-band energy ratio is at least 0.25. -/
theorem c2_classifier_characterization (xs : List ℤ) (t : ℝ) :
    is_speech xs t = true ↔
      (t ≤ rmsEnergy xs ∧
        ((1 / 100 : ℚ) ≤ zcrOf xs ∧ zcrOf xs ≤ 2 / 5) ∧
        totalBandEnergy xs ≠ 0 ∧
        (1 / 4 : ℝ) ≤ midRatio xs) := by
  constructor
  · intro h
    unfold is_speech is_speechCascade speechLaterStages at h
    split_ifs at h with h1 h2 h3 h4
    push_neg at h1 h2
    exact ⟨h1, ⟨h2.1, h2.2⟩, h3, not_lt.mp h4⟩
  · rintro ⟨ha, ⟨hb, hc⟩, hd, he⟩
    unfold is_speech is_speechCascade speechLaterStages
    have h2 : ¬(zcrOf xs < 1 / 100 ∨ (2 / 5 : ℚ) < zcrOf xs) := by
      push_neg
      exact ⟨hb, hc⟩
    rw [if_neg (not_lt.mpr ha), if_neg h2, if_neg hd,
      if_neg (not_lt.mpr he)]

/-- Claim C5: whenever the normalized RMS is below the energy threshold the
classifier answers not-speech from the energy gate alone — the verdict is
`false` whatever the later zero-crossing and spectral stages would have
answered, and in particular `is_speech` answers `false`. -/
theorem c5_energy_short_circuit (laterStages : List ℤ → Bool)
    (xs : List ℤ) (t : ℝ) (h : rmsEnergy xs < t) :
    is_speechCascade laterStages xs t = false ∧ is_speech xs t = false := by
  constructor
  · unfold is_speechCascade
    rw [if_pos h]
  · unfold is_speech is_speechCascade
    rw [if_pos h]

/-- Concrete instantiation of `c5_energy_short_circuit`: an all-zero frame
at threshold 1, against a later stage that always answers speech. -/
theorem c5_energy_short_circuit_witness :
    rmsEnergy [(0 : ℤ)] < 1 ∧
    (is_speechCascade (fun _ => true) [(0 : ℤ)] 1 = false ∧
      is_speech [(0 : ℤ)] 1 = false) := by
  have h : rmsEnergy [(0 : ℤ)] < 1 := by
    norm_num [rmsEnergy]
  exact ⟨h, c5_energy_short_circuit (fun _ => true) [(0 : ℤ)] 1 h⟩

/-- Claim C6 fails on the code: the RMS is normalized by 32767, but the most
negative 16-bit sample is -32768, so the frame consisting of that single
sample yields 32768/32767 > 1 from both `get_audio_level` and the
classifier's RMS — contradicting the documented 0.0–1.0 range.  The lower
bound 0 does hold for every frame. -/
theorem c6_rms_range_violated :
    (∀ xs : List ℤ, 0 ≤ get_audio_level xs) ∧
    get_audio_level [(-32768 : ℤ)] = 32768 / 32767 ∧
    1 < get_audio_level [(-32768 : ℤ)] ∧
    rmsEnergy [(-32768 : ℤ)] = 32768 / 32767 := by
  have hval : Real.sqrt (((([(-32768 : ℤ)]).map fun s => ((s : ℝ)) ^ 2).sum
      / ([(-32768 : ℤ)]).length)) / 32767 = 32768 / 32767 := by
    have h1 : (([(-32768 : ℤ)]).map fun s => ((s : ℝ)) ^ 2).sum
        / ([(-32768 : ℤ)]).length = (32768 : ℝ) ^ 2 := by
      simp only [List.map_cons, List.map_nil, List.sum_cons, List.sum_nil,
        List.length_cons, List.length_nil]
      push_cast
      norm_num
    rw [h1, Real.sqrt_sq (by norm_num : (0 : ℝ) ≤ 32768)]
  refine ⟨?_, ?_, ?_, ?_⟩
  · intro xs
    exact div_nonneg (Real.sqrt_nonneg _) (by norm_num)
  · exact hval
  · show (1 : ℝ) < get_audio_level [(-32768 : ℤ)]
    rw [show get_audio_level [(-32768 : ℤ)]
        = Real.sqrt (((([(-32768 : ℤ)]).map fun s => ((s : ℝ)) ^ 2).sum
          / ([(-32768 : ℤ)]).length)) / 32767 from rfl, hval]
    norm_num
  · exact hval

/-! ## The WAV artifact written by `stop_recording` (lines 125-139)

`stop_recording` joins the buffered byte frames and writes them through the
`wave` module with `nchannels = self.channels = 1`, `sampwidth = 2` (the
PyAudio sample size of `paInt16`) and `framerate = self.rate = 16000`.
Reading the container back reports a frame count of
`len(data) / (nchannels * sampwidth)`.  Samples are 16-bit signed
little-endian PCM; each sample occupies two bytes. -/

/-- Little-endian two's-complement encoding of one 16-bit sample. -/
def int16LEBytes (s : ℤ) : List ℕ :=
  [(s % 65536).toNat % 256, (s % 65536).toNat / 256]

/-- The raw bytes of one captured frame of samples. -/
def frameBytes (f : List ℤ) : List ℕ :=
  (f.map int16LEBytes).flatten

structure WavFile where
  nchannels : ℕ
  sampwidth : ℕ
  framerate : ℕ
  data : List ℕ
deriving DecidableEq

/-- The artifact `stop_recording` writes (lines 131-135): header fields from
the capture configuration, payload the concatenation of the buffered
frames. -/
def writeWav (frames : List (List ℤ)) : WavFile :=
  ⟨numChannels, 2, sampleRate, (frames.map frameBytes).flatten⟩

/-- The total sample count a reader of the container reports:
byte length divided by `nchannels * sampwidth`. -/
def wavNFrames (w : WavFile) : ℕ :=
  w.data.length / (w.nchannels * w.sampwidth)

lemma frameBytes_length (f : List ℤ) :
    (frameBytes f).length = 2 * f.length := by
  induction f with
  | nil => rfl
  | cons a f ih =>
    simp only [frameBytes, List.map_cons, List.flatten_cons,
      List.length_append] at *
    simp only [int16LEBytes, List.length_cons, List.length_nil,
      List.length_singleton] at *
    omega

lemma writeWav_data_length (frames : List (List ℤ)) :
    (writeWav frames).data.length = 2 * (frames.map List.length).sum := by
  show ((frames.map frameBytes).flatten).length = _
  induction frames with
  | nil => rfl
  | cons f fs ih =>
    simp only [List.map_cons, List.flatten_cons, List.length_append,
      List.sum_cons, ih, frameBytes_length]
    ring

/-- Claim C8: the artifact written at session end reports the configured
sample rate (16000 Hz), channel count (1), and a total sample count equal to
the sum of the captured frames' sample counts. -/
theorem c8_wav_round_trip (frames : List (List ℤ)) :
    (writeWav frames).framerate = 16000 ∧
    (writeWav frames).nchannels = 1 ∧
    wavNFrames (writeWav frames) = (frames.map List.length).sum := by
  refine ⟨rfl, rfl, ?_⟩
  show (writeWav frames).data.length / (numChannels * 2) = _
  rw [writeWav_data_length]
  show 2 * (frames.map List.length).sum / (1 * 2) = _
  omega

/-! ## The recorder's start/stop state machine (lines 80-139)

`start_recording` refuses to start while already recording (line 83), then
clears the frame buffer and opens the stream; `stop_recording` refuses to
stop while not recording (line 113), then closes the stream and writes the
buffered frames to the WAV artifact.  The Python `RuntimeError`s become an
explicit error type. -/

inductive RecError where
  | alreadyRecording
  | notRecording
deriving DecidableEq

structure RecState where
  isRecording : Bool
  frames : List (List ℤ)
  streamOpen : Bool
deriving DecidableEq

/-- Fields set by `__init__` (lines 45-48). -/
def initRecorder : RecState := ⟨false, [], false⟩

/-- `start_recording` (lines 80-103), with the device open succeeding. -/
def start_recording (s : RecState) : Except RecError RecState :=
  if s.isRecording then Except.error RecError.alreadyRecording
  else Except.ok ⟨true, [], true⟩

/-- `stop_recording` (lines 105-139): guard, release the stream, flush the
buffer to the artifact. -/
def stop_recording (s : RecState) : Except RecError (RecState × WavFile) :=
  if s.isRecording then
    Except.ok (⟨false, s.frames, false⟩, writeWav s.frames)
  else Except.error RecError.notRecording

/-- Claim C7 fails on the code: after a start/stop cycle, a second
`stop_recording` raises `RuntimeError("Not currently recording")` instead of
being an idempotent close. -/
theorem c7_counterexample :
    (start_recording initRecorder).bind (fun s1 =>
      (stop_recording s1).bind (fun p => stop_recording p.1))
      = Except.error RecError.notRecording := rfl

/-- Claim C7 amended: calling `stop_recording` a second time raises (the
guard on line 113 fires, leaving the recorder untouched), and a subsequently
opened session is unaffected: `start_recording` succeeds from the stopped
state, yields a fresh recording session with an empty buffer, and that
session stops cleanly. -/
theorem c7_stop_not_idempotent (s : RecState) (h : s.isRecording = false) :
    stop_recording s = Except.error RecError.notRecording ∧
    start_recording s = Except.ok ⟨true, [], true⟩ ∧
    stop_recording ⟨true, [], true⟩
      = Except.ok (⟨false, [], false⟩, writeWav []) := by
  refine ⟨?_, ?_, rfl⟩
  · simp [stop_recording, h]
  · simp [start_recording, h]

/-- Concrete instantiation of `c7_stop_not_idempotent` at the state in which
the counterexample's second `stop_recording` call is made. -/
theorem c7_stop_not_idempotent_witness :
    stop_recording ⟨false, [], false⟩ = Except.error RecError.notRecording ∧
    start_recording ⟨false, [], false⟩ = Except.ok ⟨true, [], true⟩ ∧
    stop_recording ⟨true, [], true⟩
      = Except.ok (⟨false, [], false⟩, writeWav []) :=
  c7_stop_not_idempotent ⟨false, [], false⟩ rfl

/-! ## Unconditional temp-file cleanup (lines 423-433 and 469-484)

`record_and_transcribe` and `record_until_enter` both transcribe the
artifact inside a `try` whose `finally` unlinks the temporary file, itself
wrapped in a `try/except` that swallows unlink errors.  Temporary paths are
modelled as naturals, the filesystem as the list of existing paths, and the
transcription step by its outcome. -/

/-- `os.unlink` wrapped in `try/except: pass`. -/
def unlinkIgnoringErrors (files : List ℕ) (p : ℕ) : List ℕ :=
  files.erase p

/-- `record_and_transcribe` from the point the artifact exists (line 423):
the transcription outcome propagates, the `finally` block deletes the
artifact on both paths. -/
def record_and_transcribeFinally {ε α : Type} (tr : Except ε α)
    (audioPath : ℕ) (files : List ℕ) : Except ε α × List ℕ :=
  match tr with
  | Except.ok t => (Except.ok t, unlinkIgnoringErrors (audioPath :: files) audioPath)
  | Except.error e =>
    (Except.error e, unlinkIgnoringErrors (audioPath :: files) audioPath)

/-- `record_until_enter` from the point the artifact exists (line 469): the
`except` clause logs and re-raises, the `finally` block deletes the
artifact on both paths. -/
def record_until_enterFinally {ε α : Type} (tr : Except ε α)
    (audioPath : ℕ) (files : List ℕ) : Except ε α × List ℕ :=
  match tr with
  | Except.ok t => (Except.ok t, unlinkIgnoringErrors (audioPath :: files) audioPath)
  | Except.error e =>
    (Except.error e, unlinkIgnoringErrors (audioPath :: files) audioPath)

/-- Claim C9: after `record_and_transcribe` (and likewise
`record_until_enter`) finishes, the temporary audio artifact no longer
exists, whether the transcription step succeeded or failed, and the
transcription outcome is what the caller sees. -/
theorem c9_cleanup_unconditional {ε α : Type} (tr : Except ε α)
    (audioPath : ℕ) (files : List ℕ) (h : audioPath ∉ files) :
    (audioPath ∉ (record_and_transcribeFinally tr audioPath files).2 ∧
      (record_and_transcribeFinally tr audioPath files).1 = tr) ∧
    (audioPath ∉ (record_until_enterFinally tr audioPath files).2 ∧
      (record_until_enterFinally tr audioPath files).1 = tr) := by
  cases tr with
  | ok t =>
    simp [record_and_transcribeFinally, record_until_enterFinally,
      unlinkIgnoringErrors, List.erase_cons_head, h]
  | error e =>
    simp [record_and_transcribeFinally, record_until_enterFinally,
      unlinkIgnoringErrors, List.erase_cons_head, h]

/-- Concrete instantiation of `c9_cleanup_unconditional`: a failing
transcription of artifact `7` on a filesystem that also holds file `3`. -/
theorem c9_cleanup_unconditional_witness :
    (7 ∉ (record_and_transcribeFinally
        (Except.error PUnit.unit : Except PUnit ℕ) 7 [3]).2 ∧
      (record_and_transcribeFinally
        (Except.error PUnit.unit : Except PUnit ℕ) 7 [3]).1
          = Except.error PUnit.unit) ∧
    (7 ∉ (record_until_enterFinally
        (Except.error PUnit.unit : Except PUnit ℕ) 7 [3]).2 ∧
      (record_until_enterFinally
        (Except.error PUnit.unit : Except PUnit ℕ) 7 [3]).1
          = Except.error PUnit.unit) :=
  c9_cleanup_unconditional (Except.error PUnit.unit) 7 [3] (by decide)

/-! ## Threshold plumbing of `record_until_silence` (lines 306-310, 333)

The wait-for-speech phase calls
`self.wait_for_sound(sound_threshold=silence_threshold * 2)` (line 308), and
`wait_for_sound` feeds that value to `is_speech` as `energy_threshold`
(line 265); the capture loop classifies with
`energy_threshold=silence_threshold` (line 333). -/

/-- Default of the `silence_threshold` parameter (line 292). -/
def defaultSilenceThreshold : ℚ := 1 / 100

/-- The pair of energy thresholds `record_until_silence` hands to
`is_speech`: first the wait-phase threshold, then the capture-phase one. -/
def recordUntilSilenceThresholds (silence_threshold : ℚ) : ℚ × ℚ :=
  (silence_threshold * 2, silence_threshold)

/-- Claim C10: the wait-for-speech phase classifies with an energy threshold
exactly twice the one used during capture, so with a positive threshold a
frame must clear a strictly higher energy bar to start the session than what
later counts as non-silence. -/
theorem c10_wait_threshold_doubled (st : ℚ) (h : 0 < st) :
    (recordUntilSilenceThresholds st).1
      = 2 * (recordUntilSilenceThresholds st).2 ∧
    (recordUntilSilenceThresholds st).2 < (recordUntilSilenceThresholds st).1 := by
  constructor
  · show st * 2 = 2 * st
    ring
  · show st < st * 2
    linarith

/-- Concrete instantiation of `c10_wait_threshold_doubled` at the default
`silence_threshold = 0.01`. -/
theorem c10_wait_threshold_doubled_witness :
    (recordUntilSilenceThresholds defaultSilenceThreshold).1
      = 2 * (recordUntilSilenceThresholds defaultSilenceThreshold).2 ∧
    (recordUntilSilenceThresholds defaultSilenceThreshold).2
      < (recordUntilSilenceThresholds defaultSilenceThreshold).1 :=
  c10_wait_threshold_doubled defaultSilenceThreshold
    (by norm_num [defaultSilenceThreshold])

end VoiceRec
